import Mathlib

/-!
# Verification of the IDM download-engine core

Shallow embedding of the download engine's pure logic, translated from the
TypeScript source:

* `src/electron/download-engine/engine.ts` (segment planning, URL probe,
  retry command),
* `src/electron/download-engine/retry.ts` (retry policy),
* the `SegmentDownloader` module (per-segment fetch attempt),
* `src/electron/db/database.ts` (download row persistence).

JavaScript numbers are modelled exactly (ℕ/ℤ for integral byte counts and
status codes, ℚ for the delay arithmetic of `retry.ts`); `Math.random()` is
passed in as an explicit stream of draws; I/O (sockets, file descriptors,
SQLite) is modelled by explicit state and by scripts of response events.
-/

namespace IDM

/-- Segment states, from `shared/types` `SegmentStatus`. -/
inductive SegmentStatus where
  | pending
  | active
  | paused
  | completed
  | error
  deriving DecidableEq, Repr

/-- Download states, from `shared/types` `DownloadStatus`. -/
inductive DownloadStatus where
  | pending
  | downloading
  | paused
  | completed
  | error
  | queued
  | merging
  | verifying
  | scheduled
  deriving DecidableEq, Repr

/-- Priorities, from `shared/types` `Priority`. -/
inductive Priority where
  | high
  | normal
  | low
  deriving DecidableEq, Repr

/-- Segment record, from `shared/types` `SegmentInfo`. -/
structure SegmentInfo where
  id : Nat
  downloadId : String
  index : Nat
  startByte : Nat
  endByte : Nat
  downloadedBytes : Nat
  status : SegmentStatus
  deriving DecidableEq, Repr

/-! ## Segment planning (`DownloadEngine.createSegments`, engine.ts)

```ts
const segmentSize = Math.ceil(totalSize / threads);
for (let i = 0; i < threads; i++) {
  const startByte = i * segmentSize;
  const endByte = Math.min((i + 1) * segmentSize - 1, totalSize - 1);
  segments.push({ id: 0, downloadId, index: i, startByte, endByte,
                  downloadedBytes: 0, status: 'pending' });
}
```
`Math.ceil(totalSize / threads)` on non-negative integers is the ceiling
division `(totalSize + threads - 1) / threads`. -/

/-- `Math.ceil(a / b)` for natural `a`, positive natural `b`. -/
def jsCeilDiv (a b : Nat) : Nat := (a + b - 1) / b

/-- `DownloadEngine.createSegments` (engine.ts lines 550-570). -/
def createSegments (downloadId : String) (totalSize threads : Nat) :
    List SegmentInfo :=
  let segmentSize := jsCeilDiv totalSize threads
  (List.range threads).map fun i =>
    { id := 0
      downloadId := downloadId
      index := i
      startByte := i * segmentSize
      endByte := min ((i + 1) * segmentSize - 1) (totalSize - 1)
      downloadedBytes := 0
      status := SegmentStatus.pending }

/-- The closed byte interval `[startByte, endByte]` owned by a segment. -/
def segInterval (s : SegmentInfo) : Finset Nat := Finset.Icc s.startByte s.endByte

lemma jsCeilDiv_pos (a b : Nat) (ha : 0 < a) (hb : 0 < b) : 0 < jsCeilDiv a b := by
  have h := Nat.div_add_mod (a + b - 1) b
  have h2 := Nat.mod_lt (a + b - 1) hb
  unfold jsCeilDiv
  rcases Nat.eq_zero_or_pos ((a + b - 1) / b) with h0 | h0
  · rw [h0] at h; omega
  · exact h0

lemma le_mul_jsCeilDiv (a b : Nat) (hb : 0 < b) : a ≤ b * jsCeilDiv a b := by
  have h := Nat.div_add_mod (a + b - 1) b
  have h2 := Nat.mod_lt (a + b - 1) hb
  unfold jsCeilDiv
  omega

/-- Membership in the list produced by `createSegments`. -/
lemma mem_createSegments {downloadId : String} {totalSize threads : Nat}
    {a : SegmentInfo} :
    a ∈ createSegments downloadId totalSize threads ↔
      ∃ i, i < threads ∧ a =
        { id := 0, downloadId := downloadId, index := i,
          startByte := i * jsCeilDiv totalSize threads,
          endByte := min ((i + 1) * jsCeilDiv totalSize threads - 1) (totalSize - 1),
          downloadedBytes := 0, status := SegmentStatus.pending } := by
  simp only [createSegments, List.mem_map, List.mem_range]
  constructor
  · rintro ⟨i, hi, rfl⟩; exact ⟨i, hi, rfl⟩
  · rintro ⟨i, hi, rfl⟩; exact ⟨i, hi, rfl⟩

/-- Unfolding of the fold that unions all segment intervals. -/
lemma mem_foldr_segUnion (l : List SegmentInfo) (x : Nat) :
    x ∈ l.foldr (fun sg acc => segInterval sg ∪ acc) ∅ ↔
      ∃ sg ∈ l, x ∈ segInterval sg := by
  induction l with
  | nil => simp
  | cons hd tl ih => simp [ih]

lemma lt_div_succ_mul (a b : Nat) (hb : 0 < b) : a < (a / b + 1) * b :=
  (Nat.div_lt_iff_lt_mul hb).mp (Nat.lt_succ_self _)

/-- **C1**: For every `totalSize > 0` and `threads ≥ 1`,
`createSegments(downloadId, totalSize, threads)` returns exactly `threads`
segments; segment `i` has `startByte = i*ceil(totalSize/threads)` and
`endByte = min((i+1)*ceil(totalSize/threads) - 1, totalSize - 1)`; the closed
intervals of the segments, taken in index order, are pairwise disjoint
(lower-indexed segments lie strictly below higher-indexed ones), contiguous
(a nonempty segment starts right after its predecessor ends), and together
cover exactly `[0, totalSize-1]`. -/
theorem createSegments_partition (downloadId : String) (totalSize threads : Nat)
    (hT : 0 < totalSize) (hth : 1 ≤ threads) :
    (createSegments downloadId totalSize threads).length = threads
    ∧ (∀ i, i < threads → (createSegments downloadId totalSize threads)[i]? =
        some { id := 0, downloadId := downloadId, index := i,
               startByte := i * jsCeilDiv totalSize threads,
               endByte := min ((i + 1) * jsCeilDiv totalSize threads - 1) (totalSize - 1),
               downloadedBytes := 0, status := SegmentStatus.pending })
    ∧ (∀ a ∈ createSegments downloadId totalSize threads,
        ∀ b ∈ createSegments downloadId totalSize threads, a.index < b.index →
          ∀ x ∈ segInterval a, ∀ y ∈ segInterval b, x < y)
    ∧ (∀ a ∈ createSegments downloadId totalSize threads,
        ∀ b ∈ createSegments downloadId totalSize threads, a.index ≠ b.index →
          Disjoint (segInterval a) (segInterval b))
    ∧ ((createSegments downloadId totalSize threads).foldr
          (fun sg acc => segInterval sg ∪ acc) ∅ = Finset.Icc 0 (totalSize - 1))
    ∧ (∀ a ∈ createSegments downloadId totalSize threads,
        ∀ b ∈ createSegments downloadId totalSize threads, b.index = a.index + 1 →
          b.startByte ≤ b.endByte → b.startByte = a.endByte + 1) := by
  obtain ⟨s, hs⟩ : ∃ s, jsCeilDiv totalSize threads = s := ⟨_, rfl⟩
  have hspos : 0 < s := hs ▸ jsCeilDiv_pos totalSize threads hT hth
  have hcover : totalSize ≤ threads * s := hs ▸ le_mul_jsCeilDiv totalSize threads hth
  -- strict ordering between distinct segments
  have horder : ∀ a ∈ createSegments downloadId totalSize threads,
      ∀ b ∈ createSegments downloadId totalSize threads, a.index < b.index →
        ∀ x ∈ segInterval a, ∀ y ∈ segInterval b, x < y := by
    intro a ha b hb hab x hx y hy
    obtain ⟨i, hi, rfl⟩ := mem_createSegments.mp ha
    obtain ⟨j, hj, rfl⟩ := mem_createSegments.mp hb
    simp only [segInterval, Finset.mem_Icc, hs] at hx hy
    have hij : i + 1 ≤ j := hab
    have h1 : x ≤ (i + 1) * s - 1 := le_trans hx.2 (min_le_left _ _)
    have h2 : (i + 1) * s ≤ j * s := Nat.mul_le_mul_right s hij
    have h3 : 0 < (i + 1) * s := Nat.mul_pos (Nat.succ_pos i) hspos
    omega
  refine ⟨?_, ?_, horder, ?_, ?_, ?_⟩
  · simp [createSegments]
  · intro i hi
    simp only [createSegments, List.getElem?_map, List.getElem?_range hi,
      Option.map_some']
  · -- disjointness from the strict ordering
    intro a ha b hb hne
    rcases Nat.lt_or_ge a.index b.index with hlt | hge
    · rw [Finset.disjoint_left]
      intro x hx hx'
      exact lt_irrefl x (horder a ha b hb hlt x hx x hx')
    · have hlt : b.index < a.index := lt_of_le_of_ne hge (fun h => hne h.symm)
      rw [Finset.disjoint_right]
      intro x hx hx'
      exact lt_irrefl x (horder b hb a ha hlt x hx x hx')
  · -- the union of the intervals is exactly [0, totalSize-1]
    ext x
    rw [mem_foldr_segUnion]
    simp only [Finset.mem_Icc]
    constructor
    · rintro ⟨sg, hsg, hx⟩
      obtain ⟨i, hi, rfl⟩ := mem_createSegments.mp hsg
      simp only [segInterval, Finset.mem_Icc] at hx
      exact ⟨Nat.zero_le x, le_trans hx.2 (min_le_right _ _)⟩
    · rintro ⟨-, hx⟩
      refine ⟨_, mem_createSegments.mpr ⟨x / s, ?_, rfl⟩, ?_⟩
      · have hlt : x < threads * s := lt_of_le_of_lt hx (by omega)
        exact (Nat.div_lt_iff_lt_mul hspos).mpr hlt
      · simp only [segInterval, Finset.mem_Icc, hs]
        have h1 : x / s * s ≤ x := Nat.div_mul_le_self x s
        have h2 : x < (x / s + 1) * s := lt_div_succ_mul x s hspos
        exact ⟨h1, le_min (by omega) hx⟩
  · -- contiguity: a nonempty segment starts right after its predecessor ends
    intro a ha b hb hsucc hne
    obtain ⟨i, hi, rfl⟩ := mem_createSegments.mp ha
    obtain ⟨j, hj, rfl⟩ := mem_createSegments.mp hb
    simp only [hs] at hsucc hne ⊢
    subst hsucc
    have hbridge : (i + 1) * s + s = (i + 1 + 1) * s := by ring
    have hj1 : (i + 1) * s ≤ totalSize - 1 := by
      rcases le_total ((i + 1 + 1) * s - 1) (totalSize - 1) with h | h
      · rw [min_eq_left h] at hne; omega
      · rw [min_eq_right h] at hne; omega
    have h4 : 0 < (i + 1) * s := Nat.mul_pos (Nat.succ_pos i) hspos
    rw [min_eq_left (by omega)]
    omega

/-- Witness for `createSegments_partition` at `totalSize = 10`, `threads = 4`
(the spec's happy-path scenario): the four planned intervals union to
`[0, 9]`. -/
theorem createSegments_partition_witness :
    (createSegments "d1" 10 4).foldr (fun sg acc => segInterval sg ∪ acc) ∅ =
      Finset.Icc 0 9 :=
  (createSegments_partition "d1" 10 4 (by decide) (by decide)).2.2.2.2.1

/-! ## Retry policy (`retry.ts`)

`calculateRetryDelay`, `isRetryableError`, `getRetryAfterMs` and `withRetry`,
embedded with exact rational arithmetic for the delay computation.
`Math.random()` is passed in as an explicit stream `rand : Nat → ℚ` of draws
(one per attempt); `Date.now()` as an explicit `now : ℤ`.  The string parsing
done by `getRetryAfterMs` (`parseInt` / `new Date`) is abstracted into which
variant of `RAHeader` the header's text denotes. -/

/-- Retry configuration, from `shared/types` `RetryConfig`. -/
structure RetryConfig where
  maxRetries : Nat
  initialDelay : ℚ
  maxDelay : ℚ
  backoffFactor : ℚ
  jitter : Bool
  deriving DecidableEq, Repr

/-- `DEFAULT_RETRY_CONFIG` (retry.ts lines 4-10). -/
def DEFAULT_RETRY_CONFIG : RetryConfig :=
  { maxRetries := 5, initialDelay := 1000, maxDelay := 30000,
    backoffFactor := 2, jitter := true }

/-- `calculateRetryDelay` (retry.ts lines 15-28).  `rand attempt` is the
`Math.random()` draw of this call; the jitter factor is
`0.75 + Math.random() * 0.5`. -/
def calculateRetryDelay (attempt : Nat) (config : RetryConfig) (rand : Nat → ℚ) : ℤ :=
  let baseDelay := min (config.initialDelay * config.backoffFactor ^ attempt)
    config.maxDelay
  if config.jitter then
    Int.floor (baseDelay * (3/4 + rand attempt * (1/2)))
  else
    Int.floor baseDelay

/-- A `Retry-After` header value as `getRetryAfterMs` classifies it:
`parseInt` succeeds (`numeric`), only `new Date(...)` succeeds (`httpDate`),
or neither (`malformed`). -/
inductive RAHeader where
  | numeric (seconds : ℤ)
  | httpDate (epochMs : ℤ)
  | malformed
  deriving DecidableEq, Repr

/-- The observable shape of a thrown JS error, as far as `retry.ts` reads it:
`error.code`, `error.statusCode`, `error.response?.statusCode`, `error.name`,
`error.message`, and `error.response?.headers['retry-after']`. -/
structure JsError where
  code : Option String := none
  statusCode : Option Nat := none
  responseStatusCode : Option Nat := none
  name : Option String := none
  message : Option String := none
  retryAfter : Option RAHeader := none
  deriving DecidableEq, Repr

/-- The `retryableCodes` set (retry.ts lines 37-42). -/
def retryableCodes : List String :=
  ["ECONNRESET", "ECONNREFUSED", "ECONNABORTED",
   "ETIMEDOUT", "EPIPE", "ENOTFOUND", "EAI_AGAIN",
   "EHOSTUNREACH", "ENETUNREACH", "ENETDOWN",
   "EPROTO", "ERR_SOCKET_TIMEOUT", "HPE_HEADER_OVERFLOW"]

/-- `error.code && retryableCodes.has(error.code)`: the code string is truthy
(non-empty) and belongs to the set. -/
def hasRetryableCode (e : JsError) : Bool :=
  match e.code with
  | some c => c ≠ "" && retryableCodes.contains c
  | none => false

/-- `error.statusCode || error.response?.statusCode` followed by the
`if (statusCode)` truthiness test: `0` and `undefined` are falsy. -/
def effectiveStatus (e : JsError) : Option Nat :=
  let sc := match e.statusCode with
    | some s => if s = 0 then e.responseStatusCode else some s
    | none => e.responseStatusCode
  match sc with
  | some 0 => none
  | other => other

/-- Does `pat` match at the head of `l`? -/
def chLeads : List Char → List Char → Bool
  | [], _ => true
  | _ :: _, [] => false
  | a :: as, b :: bs => a == b && chLeads as bs

/-- Helper for `strIncludes`: does `pat` match at any position of `l`? -/
def chHasSub (pat : List Char) : List Char → Bool
  | [] => chLeads pat []
  | l@(_ :: rest) => chLeads pat l || chHasSub pat rest

/-- `String.prototype.includes`: `pat` occurs contiguously in `s`. -/
def strIncludes (s pat : String) : Bool := chHasSub pat.toList s.toList

/-- `error.message?.includes(pat)`. -/
def messageIncludes (e : JsError) (pat : String) : Bool :=
  match e.message with
  | some m => strIncludes m pat
  | none => false

/-- The timeout tail of `isRetryableError` (retry.ts line 63):
`error.name === 'TimeoutError' || message.includes('timeout') ||
message.includes('Stall')`. -/
def timeoutMarked (e : JsError) : Bool :=
  e.name == some "TimeoutError" || messageIncludes e "timeout" ||
    messageIncludes e "Stall"

/-- `isRetryableError` (retry.ts lines 35-69). -/
def isRetryableError (e : JsError) : Bool :=
  if hasRetryableCode e then true
  else
    match effectiveStatus e with
    | some s =>
      if s = 429 then true
      else if s = 408 then true
      else if s = 503 then true
      else if 500 ≤ s ∧ s < 600 then true
      else if 400 ≤ s ∧ s < 500 then false
      else if timeoutMarked e then true
      else true
    | none => if timeoutMarked e then true else true

/-- `getRetryAfterMs` (retry.ts lines 74-90): seconds are scaled by 1000; an
HTTP-date yields `max(0, date - Date.now())`; a missing or unparseable header
yields `null`. -/
def getRetryAfterMs (e : JsError) (now : ℤ) : Option ℤ :=
  match e.retryAfter with
  | none => none
  | some (RAHeader.numeric seconds) => some (seconds * 1000)
  | some (RAHeader.httpDate t) => some (max 0 (t - now))
  | some RAHeader.malformed => none

/-- Result of one invocation of the retried function. -/
inductive Outcome (α : Type) where
  | ok (v : α)
  | err (e : JsError)
  deriving DecidableEq, Repr

/-- Observable trace of a `withRetry` run: the value returned or error
rethrown, how many times `fn` was invoked, and the delays slept between
consecutive invocations. -/
structure RetryRun (α : Type) where
  result : Outcome α
  invocations : Nat
  delays : List ℤ
  deriving DecidableEq, Repr

/-- The loop body of `withRetry` (retry.ts lines 102-126), starting at
`attempt` with `fuel = maxRetries - attempt` iterations allowed beyond the
current one.  `outcomes n` is what `fn()` does on its `n`-th invocation. -/
def withRetryFrom {α : Type} (outcomes : Nat → Outcome α) (config : RetryConfig)
    (rand : Nat → ℚ) (now : ℤ) : Nat → Nat → RetryRun α
  | attempt, fuel =>
    match outcomes attempt with
    | Outcome.ok v => { result := Outcome.ok v, invocations := 1, delays := [] }
    | Outcome.err e =>
      match fuel with
      | 0 => { result := Outcome.err e, invocations := 1, delays := [] }
      | fuel' + 1 =>
        if isRetryableError e = false then
          { result := Outcome.err e, invocations := 1, delays := [] }
        else
          let delay := (getRetryAfterMs e now).getD
            (calculateRetryDelay attempt config rand)
          let rest := withRetryFrom outcomes config rand now (attempt + 1) fuel'
          { result := rest.result, invocations := rest.invocations + 1,
            delays := delay :: rest.delays }

/-- `withRetry(fn, config, label)` (retry.ts lines 95-129). -/
def withRetry {α : Type} (outcomes : Nat → Outcome α) (config : RetryConfig)
    (rand : Nat → ℚ) (now : ℤ) : RetryRun α :=
  withRetryFrom outcomes config rand now 0 config.maxRetries

/-- **C5 (counterexample)**: the claim "every error whose HTTP status code is
any other value in 400..499 is not retryable" fails on the code: an error
carrying both a transient network code (`ECONNRESET`) and status `404` is
classified retryable, because `isRetryableError` consults the network-code set
before the status code. -/
theorem isRetryableError_404_reset_counterexample :
    effectiveStatus { code := some "ECONNRESET", statusCode := some 404 } =
        some 404
    ∧ isRetryableError { code := some "ECONNRESET", statusCode := some 404 } =
        true := by
  constructor
  · rfl
  · rfl

/-- **C5 (amended)**: `isRetryableError` classifies errors as the spec states,
with the network-code test taking priority over the status-code test: every
error with a transient network code is retryable; every error whose effective
HTTP status is 408, 429 or 5xx is retryable; every error whose effective HTTP
status is any other value in 400..499 *and which carries no transient network
code* is not retryable; and every error with no (truthy) status code —
including stall/timeout errors — is retryable. -/
theorem isRetryableError_classification (e : JsError) :
    (hasRetryableCode e = true → isRetryableError e = true)
    ∧ (∀ s, effectiveStatus e = some s →
        (s = 408 ∨ s = 429 ∨ (500 ≤ s ∧ s < 600)) → isRetryableError e = true)
    ∧ (∀ s, effectiveStatus e = some s → 400 ≤ s → s < 500 → s ≠ 408 → s ≠ 429 →
        hasRetryableCode e = false → isRetryableError e = false)
    ∧ (effectiveStatus e = none → isRetryableError e = true) := by
  refine ⟨?_, ?_, ?_, ?_⟩
  · intro h
    simp [isRetryableError, h]
  · intro s hs hcase
    unfold isRetryableError
    rcases hhc : hasRetryableCode e with _ | _
    · rw [hs]
      simp only [Bool.false_eq_true, if_false]
      split_ifs <;> first | rfl | omega
    · simp
  · intro s hs h400 h500 h408 h429 hhc
    unfold isRetryableError
    rw [hhc, hs]
    simp only [Bool.false_eq_true, if_false]
    split_ifs <;> first | rfl | omega
  · intro hs
    unfold isRetryableError
    rcases hhc : hasRetryableCode e with _ | _
    · rw [hs]
      simp only [Bool.false_eq_true, if_false]
      split_ifs <;> rfl
    · simp

/-- Witness for `isRetryableError_classification`: a bare HTTP 500 error is
retryable, a bare HTTP 404 error is not. -/
theorem isRetryableError_classification_witness :
    isRetryableError { statusCode := some 500 } = true
    ∧ isRetryableError { statusCode := some 404 } = false :=
  ⟨(isRetryableError_classification { statusCode := some 500 }).2.1 500 rfl
      (by omega),
   (isRetryableError_classification { statusCode := some 404 }).2.2.1 404 rfl
      (by omega) (by omega) (by omega) (by omega) rfl⟩

/-- **C6**: `calculateRetryDelay(n, config)` with jitter off equals
`floor(min(initialDelay * backoffFactor^n, maxDelay))`; with jitter on it
equals `floor(b * j)` with `b = min(initialDelay * backoffFactor^n, maxDelay)`
and `j = 0.75 + r * 0.5` for the uniform draw `r ∈ [0, 1]`, hence lies in
`[floor(b * 0.75), floor(b * 1.25)]`; and the total backoff over `n` attempts
is at most `Σ_{k<n} min(initialDelay * backoffFactor^k, maxDelay) * 1.25`. -/
theorem calculateRetryDelay_spec (attempt : Nat) (config : RetryConfig)
    (rand : Nat → ℚ) (h0 : 0 ≤ config.initialDelay) (h1 : 0 ≤ config.maxDelay)
    (h2 : 0 ≤ config.backoffFactor) :
    (config.jitter = false → calculateRetryDelay attempt config rand =
      Int.floor (min (config.initialDelay * config.backoffFactor ^ attempt)
        config.maxDelay))
    ∧ (config.jitter = true → calculateRetryDelay attempt config rand =
      Int.floor (min (config.initialDelay * config.backoffFactor ^ attempt)
        config.maxDelay * (3/4 + rand attempt * (1/2))))
    ∧ (config.jitter = true → 0 ≤ rand attempt → rand attempt ≤ 1 →
      Int.floor (min (config.initialDelay * config.backoffFactor ^ attempt)
          config.maxDelay * (3/4)) ≤ calculateRetryDelay attempt config rand
      ∧ calculateRetryDelay attempt config rand ≤
        Int.floor (min (config.initialDelay * config.backoffFactor ^ attempt)
          config.maxDelay * (5/4)))
    ∧ (∀ n, (∀ k, 0 ≤ rand k ∧ rand k ≤ 1) →
      (Finset.range n).sum
          (fun k => ((calculateRetryDelay k config rand : ℤ) : ℚ)) ≤
        (Finset.range n).sum (fun k =>
          min (config.initialDelay * config.backoffFactor ^ k)
            config.maxDelay * (5/4))) := by
  have hb : ∀ k : Nat,
      0 ≤ min (config.initialDelay * config.backoffFactor ^ k) config.maxDelay :=
    fun k => le_min (mul_nonneg h0 (pow_nonneg h2 k)) h1
  refine ⟨?_, ?_, ?_, ?_⟩
  · intro hj
    simp [calculateRetryDelay, hj]
  · intro hj
    simp [calculateRetryDelay, hj]
  · intro hj hr0 hr1
    have hjf : calculateRetryDelay attempt config rand =
        Int.floor (min (config.initialDelay * config.backoffFactor ^ attempt)
          config.maxDelay * (3/4 + rand attempt * (1/2))) := by
      simp [calculateRetryDelay, hj]
    rw [hjf]
    constructor
    · apply Int.floor_le_floor
      apply mul_le_mul_of_nonneg_left _ (hb attempt)
      linarith
    · apply Int.floor_le_floor
      apply mul_le_mul_of_nonneg_left _ (hb attempt)
      linarith
  · intro n hr
    apply Finset.sum_le_sum
    intro k _
    have hfl : ∀ q : ℚ, ((Int.floor q : ℤ) : ℚ) ≤ q := fun q => Int.floor_le q
    rcases hj : config.jitter with _ | _
    · have heq : calculateRetryDelay k config rand =
          Int.floor (min (config.initialDelay * config.backoffFactor ^ k)
            config.maxDelay) := by
        simp [calculateRetryDelay, hj]
      rw [heq]
      calc ((Int.floor (min (config.initialDelay * config.backoffFactor ^ k)
              config.maxDelay) : ℤ) : ℚ)
          ≤ min (config.initialDelay * config.backoffFactor ^ k) config.maxDelay :=
            hfl _
        _ ≤ min (config.initialDelay * config.backoffFactor ^ k)
              config.maxDelay * (5/4) :=
            le_mul_of_one_le_right (hb k) (by norm_num)
    · have heq : calculateRetryDelay k config rand =
          Int.floor (min (config.initialDelay * config.backoffFactor ^ k)
            config.maxDelay * (3/4 + rand k * (1/2))) := by
        simp [calculateRetryDelay, hj]
      rw [heq]
      have hstep : min (config.initialDelay * config.backoffFactor ^ k)
          config.maxDelay * (3/4 + rand k * (1/2)) ≤
          min (config.initialDelay * config.backoffFactor ^ k)
            config.maxDelay * (5/4) := by
        apply mul_le_mul_of_nonneg_left _ (hb k)
        have := (hr k).2
        linarith
      exact le_trans (hfl _) hstep

/-- Witness for `calculateRetryDelay_spec` at the default config with the
random draw fixed to `1/2`: the first-attempt delay is exactly 1000 ms and
lies within the jitter bounds `[750, 1250]`. -/
theorem calculateRetryDelay_spec_witness :
    (750 : ℤ) ≤ calculateRetryDelay 0 DEFAULT_RETRY_CONFIG (fun _ => 1/2)
    ∧ calculateRetryDelay 0 DEFAULT_RETRY_CONFIG (fun _ => 1/2) ≤ 1250 := by
  have h := (calculateRetryDelay_spec 0 DEFAULT_RETRY_CONFIG (fun _ => 1/2)
      (by norm_num [DEFAULT_RETRY_CONFIG]) (by norm_num [DEFAULT_RETRY_CONFIG])
      (by norm_num [DEFAULT_RETRY_CONFIG])).2.2.1 rfl (by norm_num) (by norm_num)
  have h750 : Int.floor (min ((1000 : ℚ) * 2 ^ 0) 30000 * (3/4)) = (750 : ℤ) := by
    norm_num
  have h1250 : Int.floor (min ((1000 : ℚ) * 2 ^ 0) 30000 * (5/4)) = (1250 : ℤ) := by
    norm_num
  simp only [DEFAULT_RETRY_CONFIG] at h
  rw [h750, h1250] at h
  exact h

/-- One-step unfolding of the retry loop. -/
lemma withRetryFrom_eq {α : Type} (o : Nat → Outcome α) (c : RetryConfig)
    (r : Nat → ℚ) (now : ℤ) (attempt fuel : Nat) :
    withRetryFrom o c r now attempt fuel =
      match o attempt with
      | Outcome.ok v => { result := Outcome.ok v, invocations := 1, delays := [] }
      | Outcome.err e =>
        match fuel with
        | 0 => { result := Outcome.err e, invocations := 1, delays := [] }
        | fuel' + 1 =>
          if isRetryableError e = false then
            { result := Outcome.err e, invocations := 1, delays := [] }
          else
            let delay := (getRetryAfterMs e now).getD
              (calculateRetryDelay attempt c r)
            let rest := withRetryFrom o c r now (attempt + 1) fuel'
            { result := rest.result, invocations := rest.invocations + 1,
              delays := delay :: rest.delays } := by
  rw [withRetryFrom]

/-- Step lemma: a successful invocation ends the loop. -/
lemma withRetryFrom_ok {α : Type} {o : Nat → Outcome α} {c : RetryConfig}
    {r : Nat → ℚ} {now : ℤ} {attempt fuel : Nat} {v : α}
    (h : o attempt = Outcome.ok v) :
    withRetryFrom o c r now attempt fuel =
      { result := Outcome.ok v, invocations := 1, delays := [] } := by
  rw [withRetryFrom_eq, h]

/-- Step lemma: with no fuel left, the error is rethrown. -/
lemma withRetryFrom_err_exhausted {α : Type} {o : Nat → Outcome α}
    {c : RetryConfig} {r : Nat → ℚ} {now : ℤ} {attempt : Nat} {e : JsError}
    (h : o attempt = Outcome.err e) :
    withRetryFrom o c r now attempt 0 =
      { result := Outcome.err e, invocations := 1, delays := [] } := by
  rw [withRetryFrom_eq, h]

/-- Step lemma: a non-retryable error is rethrown at once. -/
lemma withRetryFrom_err_fatal {α : Type} {o : Nat → Outcome α}
    {c : RetryConfig} {r : Nat → ℚ} {now : ℤ} {attempt fuel : Nat} {e : JsError}
    (h : o attempt = Outcome.err e) (hre : isRetryableError e = false) :
    withRetryFrom o c r now attempt (fuel + 1) =
      { result := Outcome.err e, invocations := 1, delays := [] } := by
  rw [withRetryFrom_eq, h]
  simp [hre]

/-- Step lemma: a retryable error sleeps one delay and recurses. -/
lemma withRetryFrom_err_retry {α : Type} {o : Nat → Outcome α}
    {c : RetryConfig} {r : Nat → ℚ} {now : ℤ} {attempt fuel : Nat} {e : JsError}
    (h : o attempt = Outcome.err e) (hre : isRetryableError e = true) :
    withRetryFrom o c r now attempt (fuel + 1) =
      { result := (withRetryFrom o c r now (attempt + 1) fuel).result,
        invocations := (withRetryFrom o c r now (attempt + 1) fuel).invocations + 1,
        delays := (getRetryAfterMs e now).getD (calculateRetryDelay attempt c r) ::
          (withRetryFrom o c r now (attempt + 1) fuel).delays } := by
  rw [withRetryFrom_eq, h]
  simp [hre]

/-- Structural facts about the retry loop, by induction on the remaining
fuel: at least one and at most `fuel + 1` invocations happen, the final
result is exactly what the last invocation produced, and one delay is slept
between each pair of consecutive invocations. -/
lemma withRetryFrom_struct {α : Type} (o : Nat → Outcome α) (c : RetryConfig)
    (r : Nat → ℚ) (now : ℤ) :
    ∀ (fuel attempt : Nat),
      1 ≤ (withRetryFrom o c r now attempt fuel).invocations
      ∧ (withRetryFrom o c r now attempt fuel).invocations ≤ fuel + 1
      ∧ (withRetryFrom o c r now attempt fuel).result =
          o (attempt + (withRetryFrom o c r now attempt fuel).invocations - 1)
      ∧ (withRetryFrom o c r now attempt fuel).delays.length =
          (withRetryFrom o c r now attempt fuel).invocations - 1 := by
  intro fuel
  induction fuel with
  | zero =>
    intro attempt
    cases ho : o attempt with
    | ok v => simp [withRetryFrom_ok ho, ho]
    | err e => simp [withRetryFrom_err_exhausted ho, ho]
  | succ f ih =>
    intro attempt
    cases ho : o attempt with
    | ok v => simp [withRetryFrom_ok ho, ho]
    | err e =>
      rcases hre : isRetryableError e with _ | _
      · simp [withRetryFrom_err_fatal ho hre, ho]
      · obtain ⟨i1, i2, i3, i4⟩ := ih (attempt + 1)
        rw [withRetryFrom_err_retry ho hre]
        dsimp only
        refine ⟨by omega, by omega, ?_, by simp only [List.length_cons]; omega⟩
        rw [i3]
        congr 1
        omega

/-- Each slept delay comes from a retryable error and is the `Retry-After`
value if present, else the computed backoff for that attempt. -/
lemma withRetryFrom_delays {α : Type} (o : Nat → Outcome α) (c : RetryConfig)
    (r : Nat → ℚ) (now : ℤ) :
    ∀ (fuel attempt k : Nat),
      k < (withRetryFrom o c r now attempt fuel).delays.length →
      ∃ e, o (attempt + k) = Outcome.err e ∧ isRetryableError e = true ∧
        (withRetryFrom o c r now attempt fuel).delays[k]? =
          some ((getRetryAfterMs e now).getD
            (calculateRetryDelay (attempt + k) c r)) := by
  intro fuel
  induction fuel with
  | zero =>
    intro attempt k hk
    cases ho : o attempt with
    | ok v => rw [withRetryFrom_ok ho] at hk; simp at hk
    | err e => rw [withRetryFrom_err_exhausted ho] at hk; simp at hk
  | succ f ih =>
    intro attempt k hk
    cases ho : o attempt with
    | ok v => rw [withRetryFrom_ok ho] at hk; simp at hk
    | err e =>
      rcases hre : isRetryableError e with _ | _
      · rw [withRetryFrom_err_fatal ho hre] at hk; simp at hk
      · rw [withRetryFrom_err_retry ho hre] at hk ⊢
        dsimp only at hk ⊢
        cases k with
        | zero =>
          exact ⟨e, by simpa using ho, hre, by simp⟩
        | succ k' =>
          simp only [List.length_cons] at hk
          obtain ⟨e', he1, he2, he3⟩ := ih (attempt + 1) k' (by omega)
          refine ⟨e', ?_, he2, ?_⟩
          · rw [show attempt + (k' + 1) = attempt + 1 + k' by omega]
            exact he1
          · simp only [List.getElem?_cons_succ]
            rw [show attempt + (k' + 1) = attempt + 1 + k' by omega]
            exact he3

/-- A non-retryable error stops the loop at once: if the first `k` invocations
fail retryably and invocation `k` fails non-retryably with spare fuel left,
exactly `k + 1` invocations happen and the non-retryable error is rethrown. -/
lemma withRetryFrom_stop {α : Type} (o : Nat → Outcome α) (c : RetryConfig)
    (r : Nat → ℚ) (now : ℤ) :
    ∀ (k fuel attempt : Nat) (e : JsError),
      k < fuel →
      (∀ j, j < k → ∃ ej, o (attempt + j) = Outcome.err ej ∧
        isRetryableError ej = true) →
      o (attempt + k) = Outcome.err e → isRetryableError e = false →
      (withRetryFrom o c r now attempt fuel).result = Outcome.err e
      ∧ (withRetryFrom o c r now attempt fuel).invocations = k + 1 := by
  intro k
  induction k with
  | zero =>
    intro fuel attempt e hk hprev ho hre
    obtain ⟨f, rfl⟩ : ∃ f, fuel = f + 1 := ⟨fuel - 1, by omega⟩
    rw [Nat.add_zero] at ho
    rw [withRetryFrom_err_fatal ho hre]
    exact ⟨rfl, rfl⟩
  | succ k' ih =>
    intro fuel attempt e hk hprev ho hre
    obtain ⟨f, rfl⟩ : ∃ f, fuel = f + 1 := ⟨fuel - 1, by omega⟩
    obtain ⟨e0, he0, hre0⟩ := hprev 0 (by omega)
    rw [Nat.add_zero] at he0
    have hrec := ih f (attempt + 1) e (by omega)
      (fun j hj => by
        obtain ⟨ej, h1, h2⟩ := hprev (j + 1) (by omega)
        exact ⟨ej, by rw [show attempt + 1 + j = attempt + (j + 1) by omega]; exact h1, h2⟩)
      (by rw [show attempt + 1 + k' = attempt + (k' + 1) by omega]; exact ho) hre
    rw [withRetryFrom_err_retry he0 hre0]
    exact ⟨hrec.1, by rw [hrec.2]⟩

/-- **C4**: `withRetry(fn, cfg, label)` invokes `fn` at most
`cfg.maxRetries + 1` times; a non-retryable error is rethrown immediately with
no further invocation; the final result (in particular, when every invocation
throws) is exactly what the last invocation produced; and the delay slept
after a failed attempt is the `Retry-After` value of the failed response when
one is present, otherwise the computed backoff delay for that attempt. -/
theorem withRetry_spec {α : Type} (outcomes : Nat → Outcome α)
    (config : RetryConfig) (rand : Nat → ℚ) (now : ℤ) :
    1 ≤ (withRetry outcomes config rand now).invocations
    ∧ (withRetry outcomes config rand now).invocations ≤ config.maxRetries + 1
    ∧ (withRetry outcomes config rand now).result =
        outcomes ((withRetry outcomes config rand now).invocations - 1)
    ∧ (∀ k e, k < config.maxRetries →
        (∀ j, j < k → ∃ ej, outcomes j = Outcome.err ej ∧
          isRetryableError ej = true) →
        outcomes k = Outcome.err e → isRetryableError e = false →
        (withRetry outcomes config rand now).result = Outcome.err e
        ∧ (withRetry outcomes config rand now).invocations = k + 1)
    ∧ (∀ k, k < (withRetry outcomes config rand now).delays.length →
        ∃ e, outcomes k = Outcome.err e ∧
          (∀ v, getRetryAfterMs e now = some v →
            (withRetry outcomes config rand now).delays[k]? = some v)
          ∧ (getRetryAfterMs e now = none →
            (withRetry outcomes config rand now).delays[k]? =
              some (calculateRetryDelay k config rand))) := by
  simp only [withRetry]
  obtain ⟨h1, h2, h3, _⟩ :=
    withRetryFrom_struct outcomes config rand now config.maxRetries 0
  refine ⟨h1, h2, by simpa using h3, ?_, ?_⟩
  · intro k e hk hprev ho hre
    exact withRetryFrom_stop outcomes config rand now k config.maxRetries 0 e hk
      (by simpa using hprev) (by simpa using ho) hre
  · intro k hk
    obtain ⟨e, he1, he2, he3⟩ :=
      withRetryFrom_delays outcomes config rand now config.maxRetries 0 k hk
    rw [Nat.zero_add] at he1 he3
    refine ⟨e, he1, ?_, ?_⟩
    · intro v hv
      rw [he3, hv]
      rfl
    · intro hv
      rw [he3, hv]
      rfl

/-- Witness for `withRetry_spec`: a function that always fails with a bare
HTTP 404 (non-retryable) is invoked exactly once under the default retry
config, and the 404 error is rethrown. -/
theorem withRetry_spec_witness :
    (withRetry (α := Nat) (fun _ => Outcome.err { statusCode := some 404 })
        DEFAULT_RETRY_CONFIG (fun _ => 0) 0).result =
      Outcome.err { statusCode := some 404 }
    ∧ (withRetry (α := Nat) (fun _ => Outcome.err { statusCode := some 404 })
        DEFAULT_RETRY_CONFIG (fun _ => 0) 0).invocations = 1 :=
  (withRetry_spec (fun _ => Outcome.err { statusCode := some 404 })
      DEFAULT_RETRY_CONFIG (fun _ => 0) 0).2.2.2.1 0 _ (by decide)
    (fun j hj => absurd hj (Nat.not_lt_zero j)) rfl (by decide)

/-! ## Segment fetch attempt (`SegmentDownloader.downloadSegment`)

One attempt of the per-segment fetch: the guard/early-complete phase and the
request it builds, then the dispatch on the response status line. -/

/-- The browser-like User-Agent constant of the segment module. -/
def USER_AGENT : String :=
  "Mozilla/5.0 (Windows NT 10.0; Win64; x64) AppleWebKit/537.36 (KHTML, like Gecko) Chrome/131.0.0.0 Safari/537.36"

/-- The HTTP request a segment fetch attempt issues: method plus the headers
and timeout built in `downloadSegment`. -/
structure SegmentRequest where
  method : String
  range : String
  userAgent : String
  accept : String
  acceptEncoding : String
  acceptLanguage : String
  connection : String
  referer : Option String
  timeoutMs : Nat
  deriving DecidableEq, Repr

/-- What the pre-request phase of one `downloadSegment` attempt does:
resolve immediately (paused/cancelled guard), mark the segment completed and
emit `complete(index)` without any request, or set the segment `active` and
issue a request. -/
inductive AttemptStep where
  | resolveNoop
  | resolveComplete (index : Nat)
  | issue (req : SegmentRequest)
  deriving DecidableEq, Repr

/-- JS truthiness of `this.referrer`: `null` and the empty string are falsy. -/
def truthyStr : Option String → Bool
  | some s => s ≠ ""
  | none => false

/-- The pre-request phase of `downloadSegment` (the guard, the
already-complete check, and the request options it builds). -/
def downloadSegmentAttempt (paused cancelled : Bool) (seg : SegmentInfo)
    (referrer : Option String) : AttemptStep :=
  if paused || cancelled then AttemptStep.resolveNoop
  else
    let startByte := seg.startByte + seg.downloadedBytes
    let endByte := seg.endByte
    if startByte > endByte then AttemptStep.resolveComplete seg.index
    else AttemptStep.issue
      { method := "GET"
        range := "bytes=" ++ toString startByte ++ "-" ++ toString endByte
        userAgent := USER_AGENT
        accept := "*/*"
        acceptEncoding := "identity"
        acceptLanguage := "en-US,en;q=0.9"
        connection := "keep-alive"
        referer := if truthyStr referrer then referrer else none
        timeoutMs := 30000 }

/-- What the response callback of `downloadSegment` does with the status
line: follow a 3xx redirect carrying a (truthy) `Location`, reject any other
status that is neither 206 nor 200 as an error tagged with the status code,
and otherwise proceed to write the body at the segment's offset. -/
inductive ResponseAction where
  | followRedirect (location : String)
  | rejectStatus (statusCode : Nat)
  | acceptWrite
  deriving DecidableEq, Repr

/-- The status dispatch at the top of the `downloadSegment` response handler.
Note that it takes no information about how many segments the download has:
the code accepts a 200 unconditionally. -/
def handleSegmentResponse (statusCode : Nat) (location : Option String) :
    ResponseAction :=
  if 300 ≤ statusCode ∧ statusCode < 400 ∧ truthyStr location then
    ResponseAction.followRedirect (location.getD "")
  else if statusCode ≠ 206 ∧ statusCode ≠ 200 then
    ResponseAction.rejectStatus statusCode
  else
    ResponseAction.acceptWrite

/-- **C3**: an un-paused, un-cancelled segment fetch attempt with
`startByte + downloadedBytes ≤ endByte` issues a GET carrying
`Range: bytes=(startByte+downloadedBytes)-(endByte)`,
`Accept-Encoding: identity` and `Connection: keep-alive`; when
`startByte + downloadedBytes > endByte` it issues no request, marks the
segment completed, emits `complete`, and resolves. -/
theorem downloadSegment_request (seg : SegmentInfo) (referrer : Option String) :
    (seg.startByte + seg.downloadedBytes ≤ seg.endByte →
      downloadSegmentAttempt false false seg referrer = AttemptStep.issue
        { method := "GET"
          range := "bytes=" ++ toString (seg.startByte + seg.downloadedBytes)
            ++ "-" ++ toString seg.endByte
          userAgent := USER_AGENT
          accept := "*/*"
          acceptEncoding := "identity"
          acceptLanguage := "en-US,en;q=0.9"
          connection := "keep-alive"
          referer := if truthyStr referrer then referrer else none
          timeoutMs := 30000 })
    ∧ (seg.endByte < seg.startByte + seg.downloadedBytes →
      downloadSegmentAttempt false false seg referrer =
        AttemptStep.resolveComplete seg.index) := by
  constructor
  · intro h
    simp only [downloadSegmentAttempt, Bool.or_self, Bool.false_eq_true,
      if_false]
    rw [if_neg (by omega)]
  · intro h
    simp only [downloadSegmentAttempt, Bool.or_self, Bool.false_eq_true,
      if_false]
    rw [if_pos (by omega)]

/-- Witness for `downloadSegment_request`: a fresh segment `[0, 99]` issues
`Range: bytes=0-99`, and a fully-downloaded segment `[0, 99]` with 100 bytes
done resolves as complete without a request. -/
theorem downloadSegment_request_witness :
    downloadSegmentAttempt false false
        { id := 1, downloadId := "d", index := 0, startByte := 0, endByte := 99,
          downloadedBytes := 0, status := SegmentStatus.pending } none =
      AttemptStep.issue
        { method := "GET", range := "bytes=0-99", userAgent := USER_AGENT,
          accept := "*/*", acceptEncoding := "identity",
          acceptLanguage := "en-US,en;q=0.9", connection := "keep-alive",
          referer := none, timeoutMs := 30000 }
    ∧ downloadSegmentAttempt false false
        { id := 1, downloadId := "d", index := 0, startByte := 0, endByte := 99,
          downloadedBytes := 100, status := SegmentStatus.active } none =
      AttemptStep.resolveComplete 0 :=
  ⟨(downloadSegment_request
      { id := 1, downloadId := "d", index := 0, startByte := 0, endByte := 99,
        downloadedBytes := 0, status := SegmentStatus.pending } none).1
      (by decide),
   (downloadSegment_request
      { id := 1, downloadId := "d", index := 0, startByte := 0, endByte := 99,
        downloadedBytes := 100, status := SegmentStatus.active } none).2
      (by decide)⟩

/-- **C2 (code bug)**: the claim — backed by the code's own comment
"200 OK means server doesn't support ranges — only valid for first/only
segment" — requires a 200 response on a multi-segment download to be rejected
as a retryable error, but `downloadSegment` accepts a 200 unconditionally and
proceeds to write the body: its status dispatch does not even receive the
number of segments.  Evaluated at the failing input (status 200, no
redirect), the code takes the write path. -/
theorem segment200_accepted_code_bug :
    handleSegmentResponse 200 none = ResponseAction.acceptWrite
    ∧ handleSegmentResponse 206 none = ResponseAction.acceptWrite
    ∧ handleSegmentResponse 404 none = ResponseAction.rejectStatus 404 := by
  refine ⟨rfl, rfl, ?_⟩
  simp [handleSegmentResponse, truthyStr]

/-! ## URL probe (`DownloadEngine._probeUrl`, engine.ts lines 582-696)

The probe is embedded over a script of per-depth request outcomes:
`script d` is what the HEAD request issued at redirect depth `d` does.
`new URL(location, url).href` is abstracted as an opaque `resolveUrl`
function.  `parseInt(res.headers['content-length'] || '0', 10)` is abstracted
as the parsed `contentLength` value (0 when the header is absent); the
filename/mime extraction is abstracted as the already-extracted optional
values, which the claims do not touch. -/

/-- The header fields `_probeUrl` reads off a response. -/
structure ProbeHeaders where
  location : Option String := none
  contentLength : Nat := 0
  acceptRanges : Option String := none
  dispositionFilename : Option String := none
  contentType : Option String := none
  deriving DecidableEq, Repr

/-- Outcome of one HEAD request in the redirect chain. -/
inductive ProbeStep where
  | reqError
  | timeout
  | response (statusCode : Nat) (headers : ProbeHeaders)
  deriving DecidableEq, Repr

/-- The tuple `_probeUrl` resolves with. -/
structure ProbeResult where
  totalSize : Nat
  supportsRange : Bool
  filename : Option String
  mime : Option String
  finalUrl : Option String
  deriving DecidableEq, Repr

/-- The fail-open tuple `{totalSize: 0, supportsRange: false, filename: null,
mime: null, finalUrl: url}`. -/
def failOpen (url : String) : ProbeResult :=
  { totalSize := 0, supportsRange := false, filename := none, mime := none,
    finalUrl := some url }

/-- The range-support extraction (engine.ts lines 639-642):
`acceptRanges === 'bytes' || (contentLength > 0 && acceptRanges !== 'none')`. -/
def probeSupportsRange (h : ProbeHeaders) : Bool :=
  h.acceptRanges == some "bytes" ||
    (decide (0 < h.contentLength) && h.acceptRanges != some "none")

/-- `DownloadEngine._probeUrl(url, referrer, redirectCount)`. -/
def probeUrl (script : Nat → ProbeStep) (resolveUrl : String → String → String)
    (url : String) (redirectCount : Nat) : ProbeResult :=
  if _h10 : redirectCount > 10 then failOpen url
  else
    match script redirectCount with
    | ProbeStep.reqError => failOpen url
    | ProbeStep.timeout => failOpen url
    | ProbeStep.response s hd =>
      if 300 ≤ s ∧ s < 400 ∧ truthyStr hd.location then
        probeUrl script resolveUrl (resolveUrl (hd.location.getD "") url)
          (redirectCount + 1)
      else if s ≠ 200 ∧ s ≠ 206 then failOpen url
      else
        { totalSize := hd.contentLength
          supportsRange := probeSupportsRange hd
          filename := hd.dispositionFilename
          mime := hd.contentType
          finalUrl := some url }
termination_by 11 - redirectCount
decreasing_by omega

/-- Unfolding of the accepted-response case of the probe. -/
lemma probeUrl_accept {script : Nat → ProbeStep}
    {resolveUrl : String → String → String} {url : String} {rc : Nat}
    {s : Nat} {hd : ProbeHeaders} (h10 : ¬ rc > 10)
    (hstep : script rc = ProbeStep.response s hd)
    (hnr : ¬(300 ≤ s ∧ s < 400 ∧ truthyStr hd.location = true))
    (hok : s = 200 ∨ s = 206) :
    probeUrl script resolveUrl url rc =
      { totalSize := hd.contentLength
        supportsRange := probeSupportsRange hd
        filename := hd.dispositionFilename
        mime := hd.contentType
        finalUrl := some url } := by
  rw [probeUrl, dif_neg h10, hstep]
  dsimp only
  rw [if_neg hnr]
  rw [if_neg (by rcases hok with h | h <;> subst h <;> simp)]

/-- If the whole redirect chain keeps redirecting, the probe eventually hits
the depth guard and fails open. -/
lemma probeUrl_all_redirect (script : Nat → ProbeStep)
    (resolveUrl : String → String → String)
    (hred : ∀ d, d ≤ 10 → ∃ s hd, script d = ProbeStep.response s hd ∧
      300 ≤ s ∧ s < 400 ∧ truthyStr hd.location = true) :
    ∀ (k rc : Nat) (url : String), 11 - rc ≤ k →
      ∃ u, probeUrl script resolveUrl url rc = failOpen u := by
  intro k
  induction k with
  | zero =>
    intro rc url hk
    have h10 : rc > 10 := by omega
    exact ⟨url, by rw [probeUrl, dif_pos h10]⟩
  | succ k ih =>
    intro rc url hk
    by_cases h10 : rc > 10
    · exact ⟨url, by rw [probeUrl, dif_pos h10]⟩
    · obtain ⟨s, hd, hstep, hs1, hs2, hs3⟩ := hred rc (by omega)
      have hstepEq : probeUrl script resolveUrl url rc =
          probeUrl script resolveUrl (resolveUrl (hd.location.getD "") url)
            (rc + 1) := by
        rw [probeUrl, dif_neg h10, hstep]
        dsimp only
        rw [if_pos ⟨hs1, hs2, hs3⟩]
      rw [hstepEq]
      exact ih (rc + 1) _ (by omega)

/-- **C7**: the URL probe never rejects: a request error, a HEAD timeout, a
non-2xx/non-redirect response status, and a redirect chain deeper than 10 all
resolve with the fail-open tuple `totalSize = 0`, `supportsRange = false`. -/
theorem probeUrl_fail_open (script : Nat → ProbeStep)
    (resolveUrl : String → String → String) (url : String) (rc : Nat) :
    (rc > 10 → probeUrl script resolveUrl url rc = failOpen url)
    ∧ (script rc = ProbeStep.reqError →
        probeUrl script resolveUrl url rc = failOpen url)
    ∧ (script rc = ProbeStep.timeout →
        probeUrl script resolveUrl url rc = failOpen url)
    ∧ (∀ s hd, script rc = ProbeStep.response s hd →
        ¬(300 ≤ s ∧ s < 400 ∧ truthyStr hd.location = true) →
        s ≠ 200 → s ≠ 206 →
        probeUrl script resolveUrl url rc = failOpen url)
    ∧ ((∀ d, d ≤ 10 → ∃ s hd, script d = ProbeStep.response s hd ∧
          300 ≤ s ∧ s < 400 ∧ truthyStr hd.location = true) →
        ∃ u, probeUrl script resolveUrl url 0 = failOpen u
          ∧ (probeUrl script resolveUrl url 0).totalSize = 0
          ∧ (probeUrl script resolveUrl url 0).supportsRange = false) := by
  refine ⟨?_, ?_, ?_, ?_, ?_⟩
  · intro h10
    rw [probeUrl, dif_pos h10]
  · intro hstep
    by_cases h10 : rc > 10
    · rw [probeUrl, dif_pos h10]
    · rw [probeUrl, dif_neg h10, hstep]
  · intro hstep
    by_cases h10 : rc > 10
    · rw [probeUrl, dif_pos h10]
    · rw [probeUrl, dif_neg h10, hstep]
  · intro s hd hstep hnr h200 h206
    by_cases h10 : rc > 10
    · rw [probeUrl, dif_pos h10]
    · rw [probeUrl, dif_neg h10, hstep]
      dsimp only
      rw [if_neg hnr, if_pos ⟨h200, h206⟩]
  · intro hred
    obtain ⟨u, hu⟩ :=
      probeUrl_all_redirect script resolveUrl hred 11 0 url (by omega)
    exact ⟨u, hu, by rw [hu]; rfl, by rw [hu]; rfl⟩

/-- Witness for `probeUrl_fail_open`: a probe whose first HEAD times out
resolves fail-open. -/
theorem probeUrl_fail_open_witness :
    probeUrl (fun _ => ProbeStep.timeout) (fun l _ => l) "http://e/x" 0 =
      failOpen "http://e/x" :=
  (probeUrl_fail_open (fun _ => ProbeStep.timeout) (fun l _ => l)
    "http://e/x" 0).2.2.1 rfl

/-- **C8**: for a successfully probed response (status 200 or 206, not a
followable redirect, within the depth limit), the probe's `supportsRange`
result is true iff the `Accept-Ranges` header equals `bytes`, or
`Content-Length` is positive and `Accept-Ranges` is absent or not `none`. -/
theorem probeUrl_supportsRange (script : Nat → ProbeStep)
    (resolveUrl : String → String → String) (url : String) (rc : Nat)
    (s : Nat) (hd : ProbeHeaders) (h10 : ¬ rc > 10)
    (hstep : script rc = ProbeStep.response s hd)
    (hnr : ¬(300 ≤ s ∧ s < 400 ∧ truthyStr hd.location = true))
    (hok : s = 200 ∨ s = 206) :
    (probeUrl script resolveUrl url rc).supportsRange = true ↔
      (hd.acceptRanges = some "bytes" ∨
        (0 < hd.contentLength ∧ hd.acceptRanges ≠ some "none")) := by
  rw [probeUrl_accept h10 hstep hnr hok]
  show probeSupportsRange hd = true ↔ _
  simp [probeSupportsRange]

/-- Witness for `probeUrl_supportsRange`: a 200 response advertising
`Content-Length: 100` and no `Accept-Ranges` header supports ranges. -/
theorem probeUrl_supportsRange_witness :
    (probeUrl (fun _ => ProbeStep.response 200 { contentLength := 100 })
      (fun l _ => l) "http://e/x" 0).supportsRange = true :=
  (probeUrl_supportsRange (fun _ => ProbeStep.response 200 { contentLength := 100 })
      (fun l _ => l) "http://e/x" 0 200 { contentLength := 100 }
      (by decide) rfl (by simp [truthyStr]) (Or.inl rfl)).mpr
    (Or.inr ⟨by decide, by simp⟩)

/-! ## Download persistence (`db/database.ts` models) and the retry command

The `downloads` and `segments` tables are modelled as lists of rows;
`better-sqlite3`'s prepared statements become pure list operations.  TEXT
enum columns (`status`, `priority`) are carried as their enum values; the
`resumable` column is the INTEGER 0/1 the code stores. -/

/-- `DownloadItem`, from `shared/types`. -/
structure DownloadItem where
  id : String
  url : String
  filename : String
  savePath : String
  totalSize : Nat
  downloadedBytes : Nat
  status : DownloadStatus
  speed : ℚ
  eta : ℚ
  threads : Nat
  priority : Priority
  createdAt : Nat
  completedAt : Option Nat
  resumable : Bool
  checksum : Option String
  checksumType : Option String
  error : Option String
  referrer : Option String
  mime : Option String
  deriving DecidableEq, Repr

/-- A row of the `downloads` table, columns as the schema stores them. -/
structure DownloadRow where
  id : String
  url : String
  filename : String
  save_path : String
  total_size : Nat
  downloaded_bytes : Nat
  status : DownloadStatus
  threads : Nat
  priority : Priority
  created_at : Nat
  completed_at : Option Nat
  resumable : Nat
  checksum : Option String
  checksum_type : Option String
  error : Option String
  referrer : Option String
  mime : Option String
  speed : ℚ
  eta : ℚ
  deriving DecidableEq, Repr

/-- The row bound by `insertDownload`'s INSERT (database.ts models,
`insertDownload`): every field of the item in column order, with
`item.resumable ? 1 : 0`. -/
def rowOfItem (item : DownloadItem) : DownloadRow :=
  { id := item.id, url := item.url, filename := item.filename,
    save_path := item.savePath, total_size := item.totalSize,
    downloaded_bytes := item.downloadedBytes, status := item.status,
    threads := item.threads, priority := item.priority,
    created_at := item.createdAt, completed_at := item.completedAt,
    resumable := if item.resumable then 1 else 0,
    checksum := item.checksum, checksum_type := item.checksumType,
    error := item.error, referrer := item.referrer, mime := item.mime,
    speed := item.speed, eta := item.eta }

/-- `row.speed || 0`: JS `||` sends the falsy number 0 to 0 and keeps any
other numeric column value. -/
def jsNumOrZero (x : ℚ) : ℚ := if x = 0 then 0 else x

/-- `mapRowToDownload` (database.ts models): `!!row.resumable` decodes the
0/1 column; `row.speed || 0` and `row.eta || 0` default the live fields. -/
def mapRowToDownload (row : DownloadRow) : DownloadItem :=
  { id := row.id, url := row.url, filename := row.filename,
    savePath := row.save_path, totalSize := row.total_size,
    downloadedBytes := row.downloaded_bytes, status := row.status,
    speed := jsNumOrZero row.speed, eta := jsNumOrZero row.eta,
    threads := row.threads, priority := row.priority,
    createdAt := row.created_at, completedAt := row.completed_at,
    resumable := row.resumable != 0,
    checksum := row.checksum, checksumType := row.checksum_type,
    error := row.error, referrer := row.referrer, mime := row.mime }

/-- The database state the engine's commands touch. -/
structure Store where
  downloads : List DownloadRow
  segments : List SegmentInfo
  deriving DecidableEq, Repr

/-- `insertDownload(item)`: appends the bound row. -/
def insertDownload (item : DownloadItem) (st : Store) : Store :=
  { st with downloads := st.downloads ++ [rowOfItem item] }

/-- `getDownload(id)`: `SELECT * FROM downloads WHERE id = ?` mapped through
`mapRowToDownload`. -/
def getDownload (id : String) (st : Store) : Option DownloadItem :=
  (st.downloads.find? (fun r => r.id == id)).map mapRowToDownload

/-- The fields of `Partial<DownloadItem>` that the retry command passes to
`updateDownload`; an absent field leaves its column unchanged. -/
structure DownloadUpdates where
  downloadedBytes : Option Nat := none
  status : Option DownloadStatus := none
  error : Option (Option String) := none
  deriving DecidableEq, Repr

/-- Application of one partial update to a row (`updateDownload`'s generated
`UPDATE ... SET` on the matched row). -/
def applyUpdates (u : DownloadUpdates) (r : DownloadRow) : DownloadRow :=
  { r with
    downloaded_bytes := u.downloadedBytes.getD r.downloaded_bytes,
    status := u.status.getD r.status,
    error := u.error.getD r.error }

/-- `updateDownload(id, updates)`: `UPDATE downloads SET ... WHERE id = ?`. -/
def updateDownload (id : String) (u : DownloadUpdates) (st : Store) : Store :=
  { st with downloads :=
      st.downloads.map (fun r => if r.id == id then applyUpdates u r else r) }

/-- `deleteSegments(downloadId)`: `DELETE FROM segments WHERE download_id = ?`. -/
def deleteSegments (id : String) (st : Store) : Store :=
  { st with segments := st.segments.filter (fun sg => !(sg.downloadId == id)) }

/-- `DownloadEngine.retryDownload` (engine.ts lines 276-289): look the item
up (throw `Download not found` if missing), reset `downloadedBytes` to 0,
`status` to `pending` and `error` to null, delete the segment rows, then
delegate to `startDownload(id)`.  The `.ok` value carries the store after the
resets and the id handed to `startDownload`. -/
def retryDownload (id : String) (st : Store) : Except String (Store × String) :=
  match getDownload id st with
  | none => Except.error ("Download not found: " ++ id)
  | some _ =>
    let st1 := updateDownload id
      { downloadedBytes := some 0, status := some DownloadStatus.pending,
        error := some none } st
    let st2 := deleteSegments id st1
    Except.ok (st2, id)

/-- engine.ts line 363, `active.item.downloadedBytes += chunkSize`: the only
in-lifetime mutation of the live byte counter during a transfer. -/
def applyProgressChunk (downloadedBytes chunkSize : Nat) : Nat :=
  downloadedBytes + chunkSize

/-- Mapping the inserted row back yields the original item field by field. -/
lemma mapRowToDownload_rowOfItem (item : DownloadItem) :
    mapRowToDownload (rowOfItem item) = item := by
  cases item with
  | mk id url filename savePath totalSize downloadedBytes status speed eta
      threads priority createdAt completedAt resumable checksum checksumType
      error referrer mime =>
    by_cases hs : speed = 0 <;> by_cases he : eta = 0 <;>
      cases resumable <;>
        simp [mapRowToDownload, rowOfItem, jsNumOrZero, hs, he]

/-- **C10**: for every well-formed (fresh-id) item, `insertDownload(item)`
followed by `getDownload(item.id)` returns the inserted item field by field:
the boolean `resumable` round-trips through its 0/1 integer column and null
optional fields come back null. -/
theorem insertDownload_getDownload_roundtrip (item : DownloadItem) (st : Store)
    (hfresh : ∀ r ∈ st.downloads, r.id ≠ item.id) :
    getDownload item.id (insertDownload item st) = some item := by
  have hnone : st.downloads.find? (fun r => r.id == item.id) = none := by
    rw [List.find?_eq_none]
    intro r hr
    simp [hfresh r hr]
  have hone : List.find? (fun r => r.id == item.id) [rowOfItem item] =
      some (rowOfItem item) := by
    simp [List.find?, rowOfItem]
  unfold getDownload insertDownload
  rw [List.find?_append, hnone, hone]
  simp [mapRowToDownload_rowOfItem]

/-- A concrete item for the round-trip witness. -/
def itemB : DownloadItem :=
  { id := "b", url := "http://h/g", filename := "g", savePath := "/dl/g",
    totalSize := 0, downloadedBytes := 0, status := DownloadStatus.pending,
    speed := 0, eta := 0, threads := 1, priority := Priority.low,
    createdAt := 7, completedAt := none, resumable := false, checksum := none,
    checksumType := none, error := none, referrer := none, mime := none }

/-- Witness for `insertDownload_getDownload_roundtrip` on the empty store. -/
theorem insertDownload_getDownload_roundtrip_witness :
    getDownload "b" (insertDownload itemB { downloads := [], segments := [] }) =
      some itemB :=
  insertDownload_getDownload_roundtrip itemB { downloads := [], segments := [] }
    (by intro r hr; simp at hr)

/-- **C9**: `retryDownload(id)` on a stored id resets the download row's
`downloadedBytes` to 0 and `error` to null (and `status` to `pending`),
deletes all of its segment rows, and delegates to `startDownload(id)`; and
the in-lifetime progress update only ever increases the byte counter, so
`downloadedBytes` never decreases except across retry's reset to 0. -/
theorem retryDownload_resets (id : String) (st : Store) (item : DownloadItem)
    (hget : getDownload id st = some item) :
    (∃ st', retryDownload id st = Except.ok (st', id)
      ∧ (∀ r ∈ st'.downloads, r.id = id →
          r.downloaded_bytes = 0 ∧ r.error = none ∧
            r.status = DownloadStatus.pending)
      ∧ (∀ sg ∈ st'.segments, sg.downloadId ≠ id))
    ∧ (∀ b c : Nat, b ≤ applyProgressChunk b c) := by
  constructor
  · refine ⟨deleteSegments id (updateDownload id
      { downloadedBytes := some 0, status := some DownloadStatus.pending,
        error := some none } st), ?_, ?_, ?_⟩
    · unfold retryDownload
      rw [hget]
    · intro r hr hrid
      simp only [deleteSegments, updateDownload, List.mem_map] at hr
      obtain ⟨r0, hr0, hcase⟩ := hr
      by_cases h0 : r0.id == id
      · rw [if_pos h0] at hcase
        subst hcase
        exact ⟨rfl, rfl, rfl⟩
      · rw [if_neg h0] at hcase
        subst hcase
        simp [hrid] at h0
    · intro sg hsg
      simp only [deleteSegments, updateDownload, List.mem_filter] at hsg
      simpa using hsg.2
  · intro b c
    exact Nat.le_add_right b c

/-- A concrete failed download for the retry witness. -/
def itemA : DownloadItem :=
  { id := "a", url := "http://h/f", filename := "f", savePath := "/dl/f",
    totalSize := 100, downloadedBytes := 40, status := DownloadStatus.error,
    speed := 0, eta := 0, threads := 2, priority := Priority.normal,
    createdAt := 1, completedAt := none, resumable := true, checksum := none,
    checksumType := none, error := some "boom", referrer := none, mime := none }

/-- A segment row belonging to `itemA`. -/
def segA : SegmentInfo :=
  { id := 1, downloadId := "a", index := 0, startByte := 0, endByte := 49,
    downloadedBytes := 40, status := SegmentStatus.error }

/-- A store holding `itemA` and one of its segment rows. -/
def storeA : Store :=
  { downloads := [rowOfItem itemA], segments := [segA] }

/-- Witness for `retryDownload_resets` on `storeA`. -/
theorem retryDownload_resets_witness :
    (∃ st', retryDownload "a" storeA = Except.ok (st', "a")
      ∧ (∀ r ∈ st'.downloads, r.id = "a" →
          r.downloaded_bytes = 0 ∧ r.error = none ∧
            r.status = DownloadStatus.pending)
      ∧ (∀ sg ∈ st'.segments, sg.downloadId ≠ "a"))
    ∧ (∀ b c : Nat, b ≤ applyProgressChunk b c) :=
  retryDownload_resets "a" storeA (mapRowToDownload (rowOfItem itemA)) (by decide)

end IDM
